import Mathlib

/-!
Verification of the launch-tracker repository against its specification.

The development shallowly embeds the two relevant source files:
* `bot.py` — `parse_message` (regex field extraction) and `update_github_csv`
  (the optimistic-concurrency append-to-remote-CSV loop);
* `config.py` — the ordered `RETAILERS` keyword table.

Remote GitHub state is modelled as a versioned blob (`St`): an optional
content string plus a natural-number version counter standing for the
commit SHA (each successful write bumps it; a conditional update succeeds
only when the supplied token equals the current version, mirroring the
update-if-unchanged semantics the code relies on, where a stale SHA makes
the remote reject the write with HTTP 409).  A `Behavior` packages the
environment: interference by concurrent writers between the client's steps
and fault injection for fetch/write (an injected status models the remote
raising a `GithubException` with that HTTP status).
-/

namespace LaunchTracker

set_option maxRecDepth 8000

/-! ### CSV row serialization (bot.py lines 83-97)

`csv.writer` with the default (excel) dialect: a field is quoted iff it
contains the delimiter `,`, the quote char `"`, or a line-terminator char
(`\r` or `\n`); embedded quotes are doubled; rows end with `"\r\n"`. -/

/-- Python csv QUOTE_MINIMAL test: does the field need quoting? -/
def needsQuoteC (f : List Char) : Bool :=
  f.any (fun c => c = ',' || c = '\"' || c = '\n' || c = '\r')

/-- Double every quote character (csv escaping of the quote char). -/
def escQ : List Char → List Char
  | [] => []
  | c :: cs => if c = '\"' then '\"' :: '\"' :: escQ cs else c :: escQ cs

/-- Serialize one field under QUOTE_MINIMAL. -/
def quoteFieldC (f : List Char) : List Char :=
  if needsQuoteC f then '\"' :: (escQ f ++ ['\"']) else f

/-- Fields joined by the delimiter. -/
def serializeFieldsC : List (List Char) → List Char
  | [] => []
  | [f] => quoteFieldC f
  | f :: fs => quoteFieldC f ++ ',' :: serializeFieldsC fs

/-- A full row as written by `csv.writer.writerow`: fields plus CRLF. -/
def serializeRowC (fields : List (List Char)) : List Char :=
  serializeFieldsC fields ++ ['\r', '\n']

/-- String-level row serialization, as produced by `writer.writerow(new_row_list)`. -/
def serializeRow (row : List String) : String :=
  String.mk (serializeRowC (row.map String.data))

/-- The header content assigned on the file-missing path (bot.py line 79). -/
def headerStr : String := "Date,Retailer,Tranche,Page_Count,Approver,Slack_Link\n"

/-- Python's `csv_data.endswith("\n")`: the last character is a newline. -/
def endsWithNl (s : String) : Bool := s.data.getLast? = some '\n'

/-- The content the code builds in the StringIO buffer (bot.py lines 84-97):
existing data (only when the file exists, padded to end with a newline)
followed by the new serialized row. -/
def updatedContent (csvData : String) (fileExists : Bool) (row : List String) : String :=
  (if fileExists then csvData ++ (if endsWithNl csvData then "" else "\n") else "")
    ++ serializeRow row

/-! ### Standard CSV row parsing (for the round-trip property P5) -/

/-- Parse the body of a quoted field: consume up to the closing quote,
undoubling embedded quotes; returns the field and the remaining input. -/
def parseQB : List Char → Option (List Char × List Char)
  | [] => none
  | c :: rest =>
    if c = '\"' then
      match rest with
      | d :: rest2 =>
        if d = '\"' then
          match parseQB rest2 with
          | some p => some ('\"' :: p.1, p.2)
          | none => none
        else some ([], rest)
      | [] => some ([], [])
    else
      match parseQB rest with
      | some p => some (c :: p.1, p.2)
      | none => none

/-- Parse a comma-separated record (fuel-indexed; one unit per field). -/
def parseRecAux : Nat → List Char → Option (List (List Char))
  | 0, _ => none
  | fuel + 1, s =>
    match s with
    | [] => some [[]]
    | c :: rest =>
      if c = '\"' then
        match parseQB rest with
        | none => none
        | some p =>
          match p.2 with
          | [] => some [p.1]
          | d :: r2 =>
            if d = ',' then
              match parseRecAux fuel r2 with
              | some fs => some (p.1 :: fs)
              | none => none
            else none
      else
        let f := (c :: rest).takeWhile (fun x => x != ',')
        match (c :: rest).dropWhile (fun x => x != ',') with
        | [] => some [f]
        | _ :: r2 =>
          match parseRecAux fuel r2 with
          | some fs => some (f :: fs)
          | none => none

/-- Strip one trailing CRLF or LF line terminator. -/
def dropEol (l : List Char) : List Char :=
  List.reverse (match l.reverse with
    | '\n' :: '\r' :: r => r
    | '\n' :: r => r
    | r => r)

/-- Parse one CSV line (terminator stripped) into its fields. -/
def parseLineC (l : List Char) : Option (List (List Char)) :=
  parseRecAux (l.length + 1) (dropEol l)

/-- String-level CSV line parse. -/
def parseLine (s : String) : Option (List String) :=
  match parseLineC s.data with
  | some fs => some (fs.map String.mk)
  | none => none

/-! ### The remote store model and the append loop (bot.py lines 60-117) -/

/-- Remote resource state: optional content and a version counter (the SHA). -/
structure St where
  content : Option String
  ver : Nat
deriving DecidableEq, Repr

/-- Result of `repo.get_contents` as observed by the client. -/
inductive FetchResult
  | found (content : String) (ver : Nat)
  | notFound
  | hardError (status : Nat)
deriving DecidableEq, Repr

/-- Result of `repo.update_file` / `repo.create_file`: success, or a
`GithubException` carrying an HTTP status. -/
inductive WriteResult
  | ok
  | exn (status : Nat)
deriving DecidableEq, Repr

/-- Observable events of one run of `update_github_csv`. -/
inductive Ev
  | fetched (r : FetchResult)
  | wrote (isCreate : Bool) (content : String) (r : WriteResult)
  | slept
deriving DecidableEq, Repr

/-- What the client computes from a fetch result (bot.py lines 71-97):
the content it will write, the version token it will condition on, and
whether it believes the file exists.  Note the bare `except:` at line 77:
a hard fetch error is treated exactly like a missing file. -/
structure AttemptData where
  content : String
  tok : Option Nat
  fileExists : Bool

/-- Environment behavior: concurrent-writer interference applied before the
fetch (`env1`) and between fetch and write (`env2`) of each attempt, plus
fault injection making the fetch or the write of a given attempt raise a
`GithubException` with the given HTTP status. -/
structure Behavior where
  env1 : Nat → St → St
  env2 : Nat → St → St
  fetchFault : Nat → Option Nat
  writeFault : Nat → Option Nat

/-- Fetch semantics: an injected fault raises; otherwise the current content
and version are returned, or NotFound when the resource is absent. -/
def doFetch (b : Behavior) (i : Nat) (st : St) : FetchResult :=
  match b.fetchFault i with
  | some s => .hardError s
  | none =>
    match st.content with
    | some c => .found c st.ver
    | none => .notFound

/-- The client's per-attempt computation (bot.py lines 71-97).  On `found`,
sha and `file_exists = True` are recorded; on anything else the bare
`except:` branch sets the header as `csv_data` (which `updatedContent`
then ignores, since the StringIO write is guarded by `file_exists`),
`sha = None`, `file_exists = False`. -/
def mkAttempt (row : List String) : FetchResult → AttemptData
  | .found c v => ⟨updatedContent c true row, some v, true⟩
  | .notFound => ⟨updatedContent headerStr false row, none, false⟩
  | .hardError _ => ⟨updatedContent headerStr false row, none, false⟩

/-- Write semantics (bot.py lines 102-105).  `update_file` is a conditional
write: it succeeds iff the resource exists and the supplied token equals
the current version, and rejects a stale token with HTTP 409 (the code's
own reading at line 110: "409 Conflict (SHA mismatch)").  `create_file`
succeeds iff the resource is absent; creating an existing file fails with
HTTP 422 (GitHub rejects a contents PUT without a sha for an existing
file).  An injected write fault raises instead, leaving state unchanged. -/
def doWrite (b : Behavior) (i : Nat) (st : St) (a : AttemptData) : St × WriteResult :=
  match b.writeFault i with
  | some s => (st, .exn s)
  | none =>
    if a.fileExists then
      match st.content, a.tok with
      | some _, some t =>
        if st.ver = t then (⟨some a.content, st.ver + 1⟩, .ok) else (st, .exn 409)
      | _, _ => (st, .exn 422)
    else
      match st.content with
      | none => (⟨some a.content, st.ver + 1⟩, .ok)
      | some _ => (st, .exn 422)

/-- Outcome of a run: the Boolean the Python function returns, the final
remote state, the event trace, and (on success) the fetch result and the
content of the successful write. -/
structure RunOut where
  ret : Bool
  final : St
  evs : List Ev
  succ : Option (FetchResult × String)
deriving DecidableEq, Repr

/-- The fetch result of the attempt at loop index `i` started from remote
state `st` (the pre-fetch interference `env1` has been applied). -/
def frOf (b : Behavior) (i : Nat) (st : St) : FetchResult :=
  doFetch b i (b.env1 i st)

/-- The client data computed by the attempt at loop index `i` from `st`. -/
def aOf (b : Behavior) (row : List String) (i : Nat) (st : St) : AttemptData :=
  mkAttempt row (frOf b i st)

/-- The remote state at write time of the attempt at loop index `i`
(both interference points applied). -/
def st2Of (b : Behavior) (i : Nat) (st : St) : St :=
  b.env2 i (b.env1 i st)

/-- The write step of the attempt at loop index `i` from `st`. -/
def wOf (b : Behavior) (row : List String) (i : Nat) (st : St) : St × WriteResult :=
  doWrite b i (st2Of b i st) (aOf b row i st)

/-- The retry loop `for attempt in range(max_retries)` of bot.py lines
69-117, one recursive step per iteration.  On a 409 the code prints,
sleeps one unit and continues (even after the last attempt); on any other
`GithubException` status it returns False at once; falling off the loop
returns False (line 117). -/
def runFrom (b : Behavior) (row : List String) (st : St) (i : Nat) : Nat → RunOut
  | 0 => ⟨false, st, [], none⟩
  | fuel + 1 =>
    let fr := frOf b i st
    let a := aOf b row i st
    let w := wOf b row i st
    match w.2 with
    | .ok => ⟨true, w.1, [.fetched fr, .wrote (!a.fileExists) a.content .ok], some (fr, a.content)⟩
    | .exn s =>
      if s = 409 then
        let o := runFrom b row w.1 (i + 1) fuel
        ⟨o.ret, o.final, .fetched fr :: .wrote (!a.fileExists) a.content (.exn s) :: .slept :: o.evs, o.succ⟩
      else
        ⟨false, w.1, [.fetched fr, .wrote (!a.fileExists) a.content (.exn s)], none⟩

/-- `update_github_csv(new_row_list)` run against a backend behavior from an
initial remote state; `max_retries = 3`. -/
def update_github_csv (b : Behavior) (row : List String) (st0 : St) : RunOut :=
  runFrom b row st0 0 3

/-- Event classifiers for counting. -/
def Ev.isFetchEv : Ev → Bool
  | .fetched _ => true
  | _ => false

/-- True for the backoff-sleep event. -/
def Ev.isWaitEv : Ev → Bool
  | .slept => true
  | _ => false

/-- True for a write performed in create mode (`repo.create_file`). -/
def Ev.isCreateEv : Ev → Bool
  | .wrote true _ _ => true
  | _ => false

/-- Number of fetch/write attempt pairs in a trace. -/
def countFetch (evs : List Ev) : Nat := evs.countP Ev.isFetchEv

/-- Number of backoff sleeps in a trace. -/
def countWait (evs : List Ev) : Nat := evs.countP Ev.isWaitEv

/-- Number of create-mode writes in a trace. -/
def countCreate (evs : List Ev) : Nat := evs.countP Ev.isCreateEv

/-- Number of (possibly overlapping) occurrences of `pat` in a string. -/
def countOcc (pat : List Char) : List Char → Nat
  | [] => 0
  | c :: rest => (if pat.isPrefixOf (c :: rest) then 1 else 0) + countOcc pat rest

/-! ### Message parsing (bot.py lines 39-58) and the keyword table (config.py) -/

/-- Python `\s` (ASCII range, as used on these chat texts). -/
def isSpaceC (c : Char) : Bool :=
  c = ' ' || c = '\t' || c = '\n' || c = '\r' || c = '\x0b' || c = '\x0c'

/-- Python `\w` word character (ASCII range). -/
def isWordC (c : Char) : Bool := c.isAlphanum || c = '_'

/-- Case-insensitive literal prefix test. -/
def ciPref : List Char → List Char → Bool
  | [], _ => true
  | _ :: _, [] => false
  | p :: ps, c :: cs => (p.toLower = c.toLower) && ciPref ps cs

/-- Leftmost match of `(\d+)\s*pages?` (IGNORECASE), returning group 1: scan
start positions left to right; at a digit, take the maximal digit run,
skip whitespace, and require a case-insensitive "page". -/
def searchPages : List Char → Option (List Char)
  | [] => none
  | c :: rest =>
    if c.isDigit then
      let ds := (c :: rest).takeWhile Char.isDigit
      let r1 := (c :: rest).dropWhile Char.isDigit
      let r2 := r1.dropWhile isSpaceC
      if ciPref ['p', 'a', 'g', 'e'] r2 then some ds else searchPages rest
    else searchPages rest

/-- After the `(Tranche|T)` alternative: `[\s-]?` then group 2 `(\d+)`. -/
def digitsAfterSep (l : List Char) : Option (List Char) :=
  let l2 := match l with
    | c :: r => if isSpaceC c || c = '-' then r else c :: r
    | [] => ([] : List Char)
  match l2 with
  | c :: _ => if c.isDigit then some (l2.takeWhile Char.isDigit) else none
  | [] => none

/-- Leftmost match of `(Tranche|T)[\s-]?(\d+)` (IGNORECASE), returning group
2; at each position the "Tranche" alternative is tried before "T". -/
def searchTranche : List Char → Option (List Char)
  | [] => none
  | c :: rest =>
    match (if ciPref ['t', 'r', 'a', 'n', 'c', 'h', 'e'] (c :: rest) then
             digitsAfterSep ((c :: rest).drop 7)
           else none) with
    | some ds => some ds
    | none =>
      if c.toLower = 't' then
        match digitsAfterSep rest with
        | some ds => some ds
        | none => searchTranche rest
      else searchTranche rest

/-- Word-ness of the character on one side of a position (edge counts as
non-word). -/
def isWordOpt : Option Char → Bool
  | some c => isWordC c
  | none => false

/-- Match of `\b<kw>\b` (kw literal, via `re.escape`) at the head of `s`,
where `prev` is the character just before `s` in the full text: the
pattern matches iff kw is a literal prefix of `s` and word-ness flips at
both ends. -/
def kwHere (kw : List Char) (prev : Option Char) (s : List Char) : Bool :=
  match kw with
  | [] => false
  | k0 :: _ =>
    kw.isPrefixOf s
      && (isWordOpt prev != isWordC k0)
      && (isWordC (kw.getLastD ' ') != isWordOpt ((s.drop kw.length).head?))

/-- Scan all start positions for a `\b<kw>\b` match. -/
def kwScan (kw : List Char) : Option Char → List Char → Bool
  | _, [] => false
  | prev, c :: rest => kwHere kw prev (c :: rest) || kwScan kw (some c) rest

/-- `re.search(r"\b" + re.escape(keyword) + r"\b", text_lower)` as a Boolean. -/
def kwSearch (kw : String) (text : List Char) : Bool :=
  kwScan kw.data none text

/-- The ordered retailer keyword table of config.py (dict insertion order). -/
def RETAILERS : List (String × List String) := [
  ("Lenovo US", ["lenovo us", "lenovo usa"]),
  ("Lenovo Intel", ["lenovo intel"]),
  ("Lenovo LAS", ["lenovo las"]),
  ("Lenovo Global", ["lenovo global"]),
  ("Lenovo Qualcomm", ["lenovo qualcomm", "snapdragon"]),
  ("J Crew", ["j crew", "jcrew"]),
  ("Madewell", ["madewell"]),
  ("Dillards", ["dillards"]),
  ("Staples", ["staples"]),
  ("Unique Vintage", ["unique vintage"]),
  ("Ann Taylor", ["ann taylor"]),
  ("LOFT", ["loft"]),
  ("GAP US", ["gap us", "gap usa"]),
  ("Old Navy", ["old navy"]),
  ("Banana Republic", ["banana republic", "br factory"]),
  ("Athleta", ["athleta us"]),
  ("Athleta Canada", ["athleta canada"]),
  ("Gap Factory", ["gap factory"]),
  ("Gap Canada", ["gap can", "gap canada"]),
  ("Joe Fresh", ["joe fresh"]),
  ("Simply Be", ["simplybe", "simply be"]),
  ("JD Williams", ["jd williams"]),
  ("Jacamo", ["jacamo"]),
  ("Lululemon", ["lululemon", "lulu"]),
  ("Foot Locker", ["footlocker"]),
  ("Sole Supplier", ["sole supplier", "solesupplier", "the sole supplier"]),
  ("Janie and Jack", ["janie and jack"]),
  ("NAPA Online", ["napaonline", "napa online"]),
  ("Pet Supermarket", ["petsupermarket", "psm"]),
  ("EVO", ["evo"]),
  ("Brooks Brothers", ["brooks brothers", "brooksbrothers"]),
  ("Revzilla", ["revzilla"]),
  ("Croma", ["croma"]),
  ("Halloween Costumes", ["halloween costumes"]),
  ("Ambrose Wilson", ["ambrose wilson", "AW"]),
  ("Fashion World", ["fashion world", "FW"]),
  ("Pacsun", ["pacsun"]),
  ("Quiksilver", ["quik silver", "quiksilver"]),
  ("Billabong", ["billabong"]),
  ("Reebok", ["reebok"]),
  ("Vince Camuto", ["vince camuto", "VC"]),
  ("David Jones", ["david jones"]),
  ("SnapAV", ["snapav"]),
  ("DSG", ["dsg", "dick's sporting goods", "dickssportinggoods"]),
  ("Rainbow Shops", ["rainbow shops", "rainbowshops"]),
  ("Alex & Ani", ["alex & ani", "alex and ani", "alexandani"]),
  ("Roots", ["roots"])
]

/-- First retailer, in table order, with a matching keyword (bot.py lines
50-56; since no official name in the table is "Unknown", the
break-on-first-match loop is exactly a first-match search). -/
def retailerOf (textLower : List Char) : String :=
  match RETAILERS.find? (fun p => p.2.any (fun kw => kwSearch kw textLower)) with
  | some p => p.1
  | none => "Unknown"

/-- `parse_message(text)` of bot.py lines 39-58: the keyword search runs on
`text.lower()` while each keyword is inserted into the regex verbatim. -/
def parse_message (text : String) : String × String × String :=
  let page_count := match searchPages text.data with
    | some ds => String.mk ds
    | none => "0"
  let tranche := match searchTranche text.data with
    | some ds => "T" ++ String.mk ds
    | none => "Unknown"
  let retailer := retailerOf (text.data.map Char.toLower)
  (retailer, tranche, page_count)

/-- A Launch Record as assembled at bot.py line 169. -/
structure LaunchRecord where
  date : String
  retailer : String
  tranche : String
  page_count : String
  approver : String
  source_link : String

/-- The row list `[date_str, retailer, tranche, count, approver_name,
slack_link]` handed to `update_github_csv`. -/
def LaunchRecord.toRow (r : LaunchRecord) : List String :=
  [r.date, r.retailer, r.tranche, r.page_count, r.approver, r.source_link]

/-! ### Concrete behaviors, states and records used to instantiate claims -/

/-- Quiet backend: no concurrent writers, no faults. -/
def bIdle : Behavior := ⟨fun _ st => st, fun _ st => st, fun _ => none, fun _ => none⟩

/-- Backend whose every write raises a `GithubException` with status `s`
(`s = 409` models a version conflict on every attempt). -/
def bWriteFail (s : Nat) : Behavior :=
  ⟨fun _ st => st, fun _ st => st, fun _ => none, fun _ => some s⟩

/-- Backend whose every fetch raises a `GithubException` with status `s`. -/
def bFetchErr (s : Nat) : Behavior :=
  ⟨fun _ st => st, fun _ st => st, fun _ => some s, fun _ => none⟩

/-- A concurrent writer appending `rowB` to an existing resource (a
legitimate append: content extended, version bumped). -/
def appendWriter (rowB : List String) (st : St) : St :=
  match st.content with
  | some c => ⟨some (updatedContent c true rowB), st.ver + 1⟩
  | none => st

/-- Backend where another writer appends `rowB` between the fetch and the
write of the first attempt, and is quiet afterwards. -/
def bConcurApp (rowB : List String) : Behavior :=
  ⟨fun _ st => st, fun i st => if i = 0 then appendWriter rowB st else st,
   fun _ => none, fun _ => none⟩

/-- A concurrent writer creating the resource with content `c` if absent. -/
def createWriter (c : String) (st : St) : St :=
  match st.content with
  | none => ⟨some c, st.ver + 1⟩
  | some _ => st

/-- Backend where another writer creates the resource between the fetch and
the write of the first attempt. -/
def bCreateRace (c : String) : Behavior :=
  ⟨fun _ st => st, fun i st => if i = 0 then createWriter c st else st,
   fun _ => none, fun _ => none⟩

/-- The spec's scenario record as a row list. -/
def rowRoots : List String :=
  ["2024-01-01 10:00:00", "Roots", "T1", "12", "Jane Doe", "https://x/y"]

/-- A second, distinct record (the concurrently-added row in P2). -/
def rowLoft : List String :=
  ["2024-01-02 11:00:00", "LOFT", "T2", "3", "Bob", "https://x/z"]

/-- An existing resource holding just the header line, at version 0. -/
def stHdr : St := ⟨some headerStr, 0⟩

/-- The content the spec's scenario says the created resource becomes. -/
def specScenarioContent : String :=
  "Date,Retailer,Tranche,Page_Count,Approver,Slack_Link\n2024-01-01 10:00:00,Roots,T1,12,Jane Doe,https://x/y\n"

/-- The final content of the P2 simulation (header, concurrent row, our row). -/
def c2FinalStr : String := headerStr ++ serializeRow rowLoft ++ serializeRow rowRoots

/-! ## Helper lemmas: CSV serialization round-trip -/

/-- Parsing a quoted-field body undoes quote doubling, provided the input
after the closing quote does not itself start with a quote. -/
theorem parseQB_escQ (f : List Char) (rest : List Char) (h : rest.head? ≠ some '\"') :
    parseQB (escQ f ++ '\"' :: rest) = some (f, rest) := by
  induction f with
  | nil =>
    cases rest with
    | nil => rfl
    | cons d r2 =>
      have hd : ¬ d = '\"' := by
        intro hdq
        exact h (by rw [hdq]; rfl)
      rw [show escQ [] ++ '\"' :: d :: r2 = '\"' :: d :: r2 from rfl, parseQB.eq_def]
      simp [hd]
  | cons c cs ih =>
    by_cases hc : c = '\"'
    · subst hc
      simp only [escQ, if_pos rfl, List.cons_append]
      rw [parseQB.eq_def]
      simp [ih]
    · simp only [escQ, if_neg hc, List.cons_append]
      rw [parseQB.eq_def]
      simp [hc, ih]

/-- A field that needs no quoting contains none of the special characters. -/
theorem needsQuote_false_mem (f : List Char) (h : needsQuoteC f = false) :
    ∀ c ∈ f, ¬ c = ',' ∧ ¬ c = '\"' ∧ ¬ c = '\n' ∧ ¬ c = '\r' := by
  intro c hc
  have hx := (List.any_eq_false).mp h c hc
  simp only [Bool.or_eq_true, decide_eq_true_eq] at hx
  push_neg at hx
  exact ⟨hx.1.1.1, hx.1.1.2, hx.1.2, hx.2⟩

/-- takeWhile/dropWhile on a comma-free block followed by a comma. -/
theorem tw_comma (f r2 : List Char) (h : ∀ c ∈ f, ¬ c = ',') :
    (f ++ ',' :: r2).takeWhile (fun x => x != ',') = f ∧
    (f ++ ',' :: r2).dropWhile (fun x => x != ',') = ',' :: r2 := by
  induction f with
  | nil => simp [List.takeWhile_cons, List.dropWhile_cons]
  | cons c cs ih =>
    have hc : ¬ c = ',' := h c (List.mem_cons_self c cs)
    have ihx := ih (fun d hd => h d (List.mem_cons_of_mem c hd))
    simp [List.takeWhile_cons, List.dropWhile_cons, hc, ihx.1, ihx.2]

/-- takeWhile/dropWhile on a comma-free list. -/
theorem tw_nocomma (f : List Char) (h : ∀ c ∈ f, ¬ c = ',') :
    f.takeWhile (fun x => x != ',') = f ∧
    f.dropWhile (fun x => x != ',') = [] := by
  induction f with
  | nil => simp
  | cons c cs ih =>
    have hc : ¬ c = ',' := h c (List.mem_cons_self c cs)
    have ihx := ih (fun d hd => h d (List.mem_cons_of_mem c hd))
    simp [List.takeWhile_cons, List.dropWhile_cons, hc, ihx.1, ihx.2]

/-- Unfolding equation for `parseRecAux` on a nonempty input. -/
theorem parseRecAux_cons (fuel : Nat) (c : Char) (rest : List Char) :
    parseRecAux (fuel + 1) (c :: rest) =
      (if c = '\"' then
        match parseQB rest with
        | none => none
        | some p =>
          match p.2 with
          | [] => some [p.1]
          | d :: r2 =>
            if d = ',' then
              match parseRecAux fuel r2 with
              | some fs => some (p.1 :: fs)
              | none => none
            else none
      else
        match (c :: rest).dropWhile (fun x => x != ',') with
        | [] => some [(c :: rest).takeWhile (fun x => x != ',')]
        | _ :: r2 =>
          match parseRecAux fuel r2 with
          | some fs => some ((c :: rest).takeWhile (fun x => x != ',') :: fs)
          | none => none) := rfl

/-- Parsing a serialized single field followed by nothing. -/
theorem parseRecAux_single (f : List Char) (n : Nat) :
    parseRecAux (n + 1) (quoteFieldC f) = some [f] := by
  by_cases hq : needsQuoteC f = true
  · simp only [quoteFieldC, if_pos hq]
    rw [parseRecAux_cons]
    rw [parseQB_escQ f [] (by simp)]
    simp
  · have hmem := needsQuote_false_mem f (by revert hq; cases needsQuoteC f <;> simp)
    rw [show quoteFieldC f = f from by simp only [quoteFieldC, if_neg hq]]
    cases f with
    | nil => rfl
    | cons c cs =>
      have hc : ¬ c = '\"' := (hmem c (List.mem_cons_self c cs)).2.1
      have htw := tw_nocomma (c :: cs) (fun d hd => (hmem d hd).1)
      rw [parseRecAux_cons]
      simp [hc, htw.1, htw.2]

/-- Parsing a serialized field followed by a comma and more input. -/
theorem parseRecAux_step (f : List Char) (S : List Char) (n : Nat) :
    parseRecAux (n + 1) (quoteFieldC f ++ ',' :: S) =
      (match parseRecAux n S with
       | some fs => some (f :: fs)
       | none => none) := by
  by_cases hq : needsQuoteC f = true
  · simp only [quoteFieldC, if_pos hq, List.cons_append, List.append_assoc,
      List.singleton_append, List.nil_append]
    rw [parseRecAux_cons, parseQB_escQ f (',' :: S) (by simp)]
    simp
  · have hmem := needsQuote_false_mem f (by revert hq; cases needsQuoteC f <;> simp)
    have htw := tw_comma f S (fun d hd => (hmem d hd).1)
    rw [show quoteFieldC f = f from by simp only [quoteFieldC, if_neg hq]]
    cases f with
    | nil =>
      rw [List.nil_append] at htw ⊢
      rw [parseRecAux_cons]
      simp [htw.1, htw.2]
    | cons c cs =>
      have hc : ¬ c = '\"' := (hmem c (List.mem_cons_self c cs)).2.1
      rw [List.cons_append] at htw ⊢
      rw [parseRecAux_cons]
      simp [hc, htw.1, htw.2]

/-- Parsing inverts field serialization, given enough fuel. -/
theorem parseRecAux_serialize (fields : List (List Char)) (hne : fields ≠ []) :
    ∀ fuel, fields.length ≤ fuel →
      parseRecAux fuel (serializeFieldsC fields) = some fields := by
  induction fields with
  | nil => exact absurd rfl hne
  | cons f fs ih =>
    intro fuel hfuel
    cases fuel with
    | zero => simp at hfuel
    | succ n =>
      cases fs with
      | nil =>
        show parseRecAux (n + 1) (quoteFieldC f) = some [f]
        exact parseRecAux_single f n
      | cons g gs =>
        show parseRecAux (n + 1) (quoteFieldC f ++ ',' :: serializeFieldsC (g :: gs))
            = some (f :: g :: gs)
        rw [parseRecAux_step]
        rw [ih (by simp) n (by simpa using Nat.lt_succ_iff.mp (Nat.lt_of_lt_of_le (Nat.lt_succ_self _) hfuel))]

/-- The serialized fields are at most one shorter than their rendering. -/
theorem len_le_serialize (fields : List (List Char)) :
    fields.length ≤ (serializeFieldsC fields).length + 1 := by
  induction fields with
  | nil => simp
  | cons f fs ih =>
    cases fs with
    | nil => simp [serializeFieldsC]
    | cons g gs =>
      show (f :: g :: gs).length ≤ (quoteFieldC f ++ ',' :: serializeFieldsC (g :: gs)).length + 1
      simp only [List.length_cons, List.length_append] at ih ⊢
      omega

/-- Stripping the CRLF terminator recovers the serialized fields. -/
theorem dropEol_crlf (x : List Char) : dropEol (x ++ ['\r', '\n']) = x := by
  unfold dropEol
  rw [show (x ++ ['\r', '\n']).reverse = '\n' :: '\r' :: x.reverse from by simp]
  exact List.reverse_reverse x

/-- Character-level round trip: parsing a serialized row yields the fields. -/
theorem parseLineC_serialize (fields : List (List Char)) (h : fields ≠ []) :
    parseLineC (serializeRowC fields) = some fields := by
  unfold parseLineC serializeRowC
  rw [dropEol_crlf]
  apply parseRecAux_serialize fields h
  have hl := len_le_serialize fields
  simp only [List.length_append]
  omega

/-- String-level round trip: `parseLine` inverts `serializeRow`. -/
theorem parseLine_serializeRow (row : List String) (h : row ≠ []) :
    parseLine (serializeRow row) = some row := by
  unfold parseLine serializeRow
  rw [show (String.mk (serializeRowC (row.map String.data))).data
        = serializeRowC (row.map String.data) from rfl]
  rw [parseLineC_serialize (row.map String.data) (by simpa using h)]
  show some (List.map String.mk (List.map String.data row)) = some row
  rw [List.map_map]
  rw [show (String.mk ∘ String.data) = id from funext fun s => rfl]
  rw [List.map_id]

/-! ## Helper lemmas: the append loop -/

/-- Unfolding equation for one iteration of the retry loop. -/
theorem runFrom_succ (b : Behavior) (row : List String) (st : St) (i fuel : Nat) :
    runFrom b row st i (fuel + 1) =
      (match (wOf b row i st).2 with
       | .ok =>
         ⟨true, (wOf b row i st).1,
          [.fetched (frOf b i st),
           .wrote (!(aOf b row i st).fileExists) (aOf b row i st).content .ok],
          some (frOf b i st, (aOf b row i st).content)⟩
       | .exn s =>
         if s = 409 then
           ⟨(runFrom b row (wOf b row i st).1 (i + 1) fuel).ret,
            (runFrom b row (wOf b row i st).1 (i + 1) fuel).final,
            .fetched (frOf b i st)
              :: .wrote (!(aOf b row i st).fileExists) (aOf b row i st).content (.exn s)
              :: .slept :: (runFrom b row (wOf b row i st).1 (i + 1) fuel).evs,
            (runFrom b row (wOf b row i st).1 (i + 1) fuel).succ⟩
         else
           ⟨false, (wOf b row i st).1,
            [.fetched (frOf b i st),
             .wrote (!(aOf b row i st).fileExists) (aOf b row i st).content (.exn s)],
            none⟩) := rfl

/-- Whatever the fetch result, the content the client writes ends with the
serialized row. -/
theorem aOf_content (b : Behavior) (row : List String) (i : Nat) (st : St) :
    ∃ p, (aOf b row i st).content = p ++ serializeRow row := by
  unfold aOf mkAttempt
  cases frOf b i st <;> exact ⟨_, rfl⟩

/-- On a `found` fetch the client conditions the update on the fetched
version and treats the file as existing. -/
theorem aOf_found (b : Behavior) (row : List String) (i : Nat) (st : St) (c : String) (v : Nat)
    (h : frOf b i st = .found c v) :
    (aOf b row i st).tok = some v ∧ (aOf b row i st).fileExists = true := by
  unfold aOf
  rw [h]
  exact ⟨rfl, rfl⟩

/-- On a fetch that is not `found`, the client attempts a create. -/
theorem aOf_notfound (b : Behavior) (row : List String) (i : Nat) (st : St)
    (h : ∀ c v, frOf b i st ≠ .found c v) :
    (aOf b row i st).fileExists = false := by
  unfold aOf
  cases hf : frOf b i st with
  | found c v => exact absurd hf (h c v)
  | notFound => rfl
  | hardError s => rfl

/-- Exhaustive case analysis of the write step. -/
theorem doWrite_cases (b : Behavior) (i : Nat) (st : St) (a : AttemptData) :
    (a.fileExists = true ∧ a.tok = some st.ver ∧
       doWrite b i st a = (⟨some a.content, st.ver + 1⟩, .ok))
    ∨ (a.fileExists = false ∧ st.content = none ∧
       doWrite b i st a = (⟨some a.content, st.ver + 1⟩, .ok))
    ∨ (∃ s, (doWrite b i st a).2 = .exn s) := by
  cases hw : b.writeFault i with
  | some s => exact Or.inr (Or.inr ⟨s, by simp [doWrite, hw]⟩)
  | none =>
    cases hfe : a.fileExists with
    | false =>
      cases hc : st.content with
      | none => exact Or.inr (Or.inl ⟨rfl, rfl, by simp [doWrite, hw, hfe, hc]⟩)
      | some c => exact Or.inr (Or.inr ⟨422, by simp [doWrite, hw, hfe, hc]⟩)
    | true =>
      cases hc : st.content with
      | none =>
        cases ht : a.tok with
        | none => exact Or.inr (Or.inr ⟨422, by simp [doWrite, hw, hfe, hc, ht]⟩)
        | some t => exact Or.inr (Or.inr ⟨422, by simp [doWrite, hw, hfe, hc, ht]⟩)
      | some c =>
        cases ht : a.tok with
        | none => exact Or.inr (Or.inr ⟨422, by simp [doWrite, hw, hfe, hc, ht]⟩)
        | some t =>
          by_cases hv : st.ver = t
          · exact Or.inl ⟨rfl, by rw [hv], by simp [doWrite, hw, hfe, hc, ht, hv]⟩
          · exact Or.inr (Or.inr ⟨409, by simp [doWrite, hw, hfe, hc, ht, hv]⟩)

/-- The loop step when the write succeeds. -/
theorem runFrom_succ_ok (b : Behavior) (row : List String) (st : St) (i fuel : Nat)
    (hs : (wOf b row i st).2 = .ok) :
    runFrom b row st i (fuel + 1) =
      ⟨true, (wOf b row i st).1,
       [.fetched (frOf b i st),
        .wrote (!(aOf b row i st).fileExists) (aOf b row i st).content .ok],
       some (frOf b i st, (aOf b row i st).content)⟩ := by
  rw [runFrom_succ, hs]

/-- The loop step on a version conflict (HTTP 409): sleep and recurse. -/
theorem runFrom_succ_conflict (b : Behavior) (row : List String) (st : St) (i fuel : Nat)
    (hs : (wOf b row i st).2 = .exn 409) :
    runFrom b row st i (fuel + 1) =
      ⟨(runFrom b row (wOf b row i st).1 (i + 1) fuel).ret,
       (runFrom b row (wOf b row i st).1 (i + 1) fuel).final,
       .fetched (frOf b i st)
         :: .wrote (!(aOf b row i st).fileExists) (aOf b row i st).content (.exn 409)
         :: .slept :: (runFrom b row (wOf b row i st).1 (i + 1) fuel).evs,
       (runFrom b row (wOf b row i st).1 (i + 1) fuel).succ⟩ := by
  rw [runFrom_succ, hs]
  rfl

/-- The loop step on any other remote error: return False at once. -/
theorem runFrom_succ_hard (b : Behavior) (row : List String) (st : St) (i fuel s : Nat)
    (hs : (wOf b row i st).2 = .exn s) (h409 : ¬ s = 409) :
    runFrom b row st i (fuel + 1) =
      ⟨false, (wOf b row i st).1,
       [.fetched (frOf b i st),
        .wrote (!(aOf b row i st).fileExists) (aOf b row i st).content (.exn s)],
       none⟩ := by
  rw [runFrom_succ, hs]
  exact if_neg h409

/-- Core lemma for C1: whenever the loop returns True, the successful
attempt wrote content ending with the serialized row, the final state
holds exactly that content, and — when a version was fetched on that
attempt — the final version is strictly newer. -/
theorem runFrom_success (b : Behavior) (row : List String) :
    ∀ fuel st i, (runFrom b row st i fuel).ret = true →
      ∃ fr c, (runFrom b row st i fuel).succ = some (fr, c) ∧
        (∃ p, c = p ++ serializeRow row) ∧
        (runFrom b row st i fuel).final.content = some c ∧
        ∀ c0 v, fr = FetchResult.found c0 v → v < (runFrom b row st i fuel).final.ver := by
  intro fuel
  induction fuel with
  | zero => intro st i h; exact absurd h (by simp [runFrom])
  | succ n ih =>
    intro st i h
    have hwd : wOf b row i st = doWrite b i (st2Of b i st) (aOf b row i st) := rfl
    cases hw2 : (wOf b row i st).2 with
    | exn s =>
      by_cases h409 : s = 409
      · subst h409
        rw [runFrom_succ_conflict b row st i n hw2] at h ⊢
        exact ih (wOf b row i st).1 (i + 1) h
      · rw [runFrom_succ_hard b row st i n s hw2 h409] at h
        exact absurd h (by simp)
    | ok =>
      rw [runFrom_succ_ok b row st i n hw2] at h ⊢
      rcases doWrite_cases b i (st2Of b i st) (aOf b row i st) with
        ⟨hfe, htok, heq⟩ | ⟨hfe, hcn, heq⟩ | ⟨s, hs⟩
      · have h1 : (wOf b row i st).1
            = ⟨some (aOf b row i st).content, (st2Of b i st).ver + 1⟩ := by
          rw [hwd, heq]
        refine ⟨frOf b i st, (aOf b row i st).content, rfl, aOf_content b row i st, ?_, ?_⟩
        · rw [h1]
        · intro c0 v hfr
          rw [h1]
          have hv := (aOf_found b row i st c0 v hfr).1
          rw [hv] at htok
          have hveq : v = (st2Of b i st).ver := by injection htok
          rw [hveq]
          exact Nat.lt_succ_self _
      · have h1 : (wOf b row i st).1
            = ⟨some (aOf b row i st).content, (st2Of b i st).ver + 1⟩ := by
          rw [hwd, heq]
        refine ⟨frOf b i st, (aOf b row i st).content, rfl, aOf_content b row i st, ?_, ?_⟩
        · rw [h1]
        · intro c0 v hfr
          have hfe2 := (aOf_found b row i st c0 v hfr).2
          rw [hfe2] at hfe
          exact absurd hfe (by simp)
      · have hss : (wOf b row i st).2 = .exn s := hs
        rw [hw2] at hss
        exact WriteResult.noConfusion hss

/-- When every write is rejected with 409, every iteration conflicts: the
loop performs one fetch/write pair and one sleep per unit of fuel and
falls off the loop returning False. -/
theorem runFrom_allConflict (b : Behavior) (row : List String)
    (h : ∀ i, b.writeFault i = some 409) :
    ∀ fuel st i, (runFrom b row st i fuel).ret = false ∧
      countFetch (runFrom b row st i fuel).evs = fuel ∧
      countWait (runFrom b row st i fuel).evs = fuel := by
  intro fuel
  induction fuel with
  | zero => intro st i; exact ⟨rfl, rfl, rfl⟩
  | succ n ih =>
    intro st i
    have hw2 : (wOf b row i st).2 = .exn 409 := by
      show (doWrite b i (st2Of b i st) (aOf b row i st)).2 = .exn 409
      simp [doWrite, h i]
    rw [runFrom_succ_conflict b row st i n hw2]
    have hr := ih (wOf b row i st).1 (i + 1)
    refine ⟨hr.1, ?_, ?_⟩
    · simp only [countFetch, List.countP_cons, Ev.isFetchEv] at hr ⊢
      simp [hr.2.1]
    · simp only [countWait, List.countP_cons, Ev.isWaitEv] at hr ⊢
      simp [hr.2.2]

/-! ## Claim theorems -/

/-- C1: for every backend behavior, whenever `update_github_csv` returns
Success, the serialized row is a suffix of the content of the successful
write, the final resource holds exactly that content, and — whenever the
successful attempt's fetch observed a version — the final version is
strictly newer than the observed one. -/
theorem c1_success_guarantee (b : Behavior) (row : List String) (st0 : St)
    (h : (update_github_csv b row st0).ret = true) :
    ∃ fr c, (update_github_csv b row st0).succ = some (fr, c) ∧
      (∃ p, c = p ++ serializeRow row) ∧
      (update_github_csv b row st0).final.content = some c ∧
      ∀ c0 v, fr = FetchResult.found c0 v → v < (update_github_csv b row st0).final.ver :=
  runFrom_success b row 3 st0 0 h

/-- Witness for C1 at a concrete quiet backend with an existing resource. -/
theorem c1_success_guarantee_witness :
    (update_github_csv bIdle rowRoots stHdr).ret = true ∧
    (∃ fr c, (update_github_csv bIdle rowRoots stHdr).succ = some (fr, c) ∧
      (∃ p, c = p ++ serializeRow rowRoots) ∧
      (update_github_csv bIdle rowRoots stHdr).final.content = some c ∧
      ∀ c0 v, fr = FetchResult.found c0 v
        → v < (update_github_csv bIdle rowRoots stHdr).final.ver) :=
  ⟨rfl, c1_success_guarantee bIdle rowRoots stHdr rfl⟩

/-- C3 counterexample: with every write rejected as a version conflict, the
code sleeps three times — including once after the final attempt, where
the claim says no wait occurs — and its return value is the same bare
False a hard error produces, so the failure is not distinguishable. -/
theorem c3_counterexample :
    countWait (update_github_csv (bWriteFail 409) rowRoots stHdr).evs = 3 ∧
    ¬ countWait (update_github_csv (bWriteFail 409) rowRoots stHdr).evs ≤ 2 ∧
    (update_github_csv (bWriteFail 409) rowRoots stHdr).ret
      = (update_github_csv (bWriteFail 500) rowRoots stHdr).ret := by
  exact ⟨by decide, by decide, by decide⟩

/-- C3 (amended): when every conditional write is rejected with a version
conflict, exactly 3 fetch/write pairs are made, a backoff sleep follows
every conflict (3 sleeps, one of them after the final attempt), and the
result is the untagged failure value False. -/
theorem c3_retry_exhaustion (b : Behavior) (row : List String) (st0 : St)
    (h : ∀ i, b.writeFault i = some 409) :
    (update_github_csv b row st0).ret = false ∧
    countFetch (update_github_csv b row st0).evs = 3 ∧
    countWait (update_github_csv b row st0).evs = 3 :=
  runFrom_allConflict b row h 3 st0 0

/-- Witness for the amended C3 at the concrete all-conflict backend. -/
theorem c3_retry_exhaustion_witness :
    (∀ i : Nat, (bWriteFail 409).writeFault i = some 409) ∧
    ((update_github_csv (bWriteFail 409) rowRoots stHdr).ret = false ∧
     countFetch (update_github_csv (bWriteFail 409) rowRoots stHdr).evs = 3 ∧
     countWait (update_github_csv (bWriteFail 409) rowRoots stHdr).evs = 3) :=
  ⟨fun _ => rfl, c3_retry_exhaustion (bWriteFail 409) rowRoots stHdr (fun _ => rfl)⟩

/-- C4 counterexample: the returned value is the same for different
underlying causes (HTTP 401 vs 403), so the Failure is not returned "with
the underlying cause" — the function yields a bare False. -/
theorem c4_counterexample :
    (update_github_csv (bWriteFail 401) rowRoots stHdr).ret
      = (update_github_csv (bWriteFail 403) rowRoots stHdr).ret ∧
    (update_github_csv (bWriteFail 401) rowRoots stHdr).ret = false :=
  ⟨rfl, rfl⟩

/-- C4 (amended): a non-409 write error on the first attempt makes the call
return the generic failure value immediately: exactly one fetch/write
pair, no backoff sleep, no further attempt. -/
theorem c4_hard_error_short_circuit (b : Behavior) (row : List String) (st0 : St) (s : Nat)
    (h1 : b.writeFault 0 = some s) (h2 : ¬ s = 409) :
    (update_github_csv b row st0).ret = false ∧
    countFetch (update_github_csv b row st0).evs = 1 ∧
    countWait (update_github_csv b row st0).evs = 0 := by
  have hw2 : (wOf b row 0 st0).2 = .exn s := by
    show (doWrite b 0 (st2Of b 0 st0) (aOf b row 0 st0)).2 = .exn s
    simp [doWrite, h1]
  have he : update_github_csv b row st0 = runFrom b row st0 0 (2 + 1) := rfl
  rw [he, runFrom_succ_hard b row st0 0 2 s hw2 h2]
  refine ⟨rfl, ?_, ?_⟩
  · simp [countFetch, List.countP_cons, Ev.isFetchEv]
  · simp [countWait, List.countP_cons, Ev.isWaitEv]

/-- Witness for the amended C4 with a 401 on the first write. -/
theorem c4_hard_error_short_circuit_witness :
    ((bWriteFail 401).writeFault 0 = some 401 ∧ ¬ (401 : Nat) = 409) ∧
    ((update_github_csv (bWriteFail 401) rowRoots stHdr).ret = false ∧
     countFetch (update_github_csv (bWriteFail 401) rowRoots stHdr).evs = 1 ∧
     countWait (update_github_csv (bWriteFail 401) rowRoots stHdr).evs = 0) :=
  ⟨⟨rfl, by decide⟩, c4_hard_error_short_circuit (bWriteFail 401) rowRoots stHdr 401 rfl (by decide)⟩

/-- C5: a hard fetch error is conflated with "file does not exist" by the
bare `except` at bot.py line 77.  With the resource present, the code
responds to a 401 fetch failure by attempting a create (which fails and
yields the bare False); with the resource absent, it even returns Success
despite the fetch having failed with a hard error — in both cases
contradicting the claim that a hard-error fetch is returned as a Failure
and never leads to a create. -/
theorem c5_fetch_hard_error_conflated :
    (update_github_csv (bFetchErr 401) rowRoots ⟨some headerStr, 5⟩).evs
      = [.fetched (.hardError 401), .wrote true (serializeRow rowRoots) (.exn 422)] ∧
    (update_github_csv (bFetchErr 401) rowRoots ⟨some headerStr, 5⟩).ret = false ∧
    (update_github_csv (bFetchErr 401) rowRoots ⟨none, 0⟩).ret = true := by
  exact ⟨by decide, rfl, rfl⟩

/-- C6: appending the spec's scenario record to a non-existent resource
creates it containing only the data row (CRLF-terminated) — the header
assigned on the not-found path is never written, because the StringIO
write of `csv_data` is guarded by `file_exists` — so the created content
differs from the header+row content required by the claim. -/
theorem c6_create_missing_header :
    (update_github_csv bIdle rowRoots ⟨none, 0⟩).final.content
      = some "2024-01-01 10:00:00,Roots,T1,12,Jane Doe,https://x/y\r\n" ∧
    ¬ (update_github_csv bIdle rowRoots ⟨none, 0⟩).final.content = some specScenarioContent := by
  exact ⟨by decide, by decide⟩

/-- C7: for every existing resource content, the content written back is
the fetched content unchanged, followed by at most one added newline
(added exactly when the fetched content does not end with one), followed
by the single serialized row. -/
theorem c7_append_only_frame (csvData : String) (row : List String) :
    ∃ pad : List Char,
      (pad = [] ∨ pad = ['\n'])
      ∧ (updatedContent csvData true row).data
          = csvData.data ++ pad ++ (serializeRow row).data
      ∧ (endsWithNl csvData = true → pad = [])
      ∧ (endsWithNl csvData = false → pad = ['\n']) := by
  by_cases h : endsWithNl csvData
  · refine ⟨[], Or.inl rfl, ?_, fun _ => rfl, fun hc => by simp [hc] at h⟩
    simp [updatedContent, h, String.data_append]
  · refine ⟨['\n'], Or.inr rfl, ?_, fun hc => by simp [hc] at h, fun _ => rfl⟩
    simp [updatedContent, h, String.data_append]

/-- C8: when the resource is absent at fetch time but exists by write time
(a lost create race), the create fails with a non-409 error and the call
returns False after exactly one attempt, with no backoff sleep and no
retry. -/
theorem c8_create_race (b : Behavior) (row : List String) (st0 : St)
    (hf : b.fetchFault 0 = none)
    (habsent : (b.env1 0 st0).content = none)
    (hw : b.writeFault 0 = none)
    (hrace : ¬ (st2Of b 0 st0).content = none) :
    (update_github_csv b row st0).ret = false ∧
    countFetch (update_github_csv b row st0).evs = 1 ∧
    countWait (update_github_csv b row st0).evs = 0 := by
  have hfr : frOf b 0 st0 = .notFound := by
    unfold frOf doFetch
    rw [hf, habsent]
  have hfe : (aOf b row 0 st0).fileExists = false := by
    unfold aOf
    rw [hfr]
    rfl
  obtain ⟨d, hd⟩ : ∃ d, (st2Of b 0 st0).content = some d := by
    cases hcc : (st2Of b 0 st0).content with
    | none => exact absurd hcc hrace
    | some d => exact ⟨d, rfl⟩
  have hw2 : (wOf b row 0 st0).2 = .exn 422 := by
    show (doWrite b 0 (st2Of b 0 st0) (aOf b row 0 st0)).2 = .exn 422
    simp [doWrite, hw, hfe, hd]
  have he : update_github_csv b row st0 = runFrom b row st0 0 (2 + 1) := rfl
  rw [he, runFrom_succ_hard b row st0 0 2 422 hw2 (by decide)]
  refine ⟨rfl, ?_, ?_⟩
  · simp [countFetch, List.countP_cons, Ev.isFetchEv]
  · simp [countWait, List.countP_cons, Ev.isWaitEv]

/-- Witness for C8: concrete lost create race. -/
theorem c8_create_race_witness :
    ((bCreateRace "Z\n").fetchFault 0 = none ∧
     ((bCreateRace "Z\n").env1 0 ⟨none, 0⟩).content = none ∧
     (bCreateRace "Z\n").writeFault 0 = none ∧
     ¬ (st2Of (bCreateRace "Z\n") 0 ⟨none, 0⟩).content = none) ∧
    ((update_github_csv (bCreateRace "Z\n") rowRoots ⟨none, 0⟩).ret = false ∧
     countFetch (update_github_csv (bCreateRace "Z\n") rowRoots ⟨none, 0⟩).evs = 1 ∧
     countWait (update_github_csv (bCreateRace "Z\n") rowRoots ⟨none, 0⟩).evs = 0) :=
  ⟨⟨rfl, rfl, rfl, by decide⟩,
   c8_create_race (bCreateRace "Z\n") rowRoots ⟨none, 0⟩ rfl rfl rfl (by decide)⟩

/-- C2: with a concurrent writer appending `rowB` between the fetch and the
write of the first attempt, the first conditional write is rejected with
409 and the second succeeds: the call returns True after exactly two
fetch/write pairs and one backoff sleep, and the final content is the
re-fetched content (including `rowB`) with this call's row appended — the
stale first-attempt content is not reused.  On the concrete P2 simulation
both rows occur exactly once in the final content. -/
theorem c2_conflict_retry :
    (∀ (c0 : String) (v0 : Nat) (rowA rowB : List String),
      (update_github_csv (bConcurApp rowB) rowA ⟨some c0, v0⟩).ret = true ∧
      (update_github_csv (bConcurApp rowB) rowA ⟨some c0, v0⟩).final.content
        = some (updatedContent (updatedContent c0 true rowB) true rowA) ∧
      countFetch (update_github_csv (bConcurApp rowB) rowA ⟨some c0, v0⟩).evs = 2 ∧
      countWait (update_github_csv (bConcurApp rowB) rowA ⟨some c0, v0⟩).evs = 1)
    ∧
    ((update_github_csv (bConcurApp rowLoft) rowRoots stHdr).final.content = some c2FinalStr ∧
     countOcc (serializeRow rowRoots).data c2FinalStr.data = 1 ∧
     countOcc (serializeRow rowLoft).data c2FinalStr.data = 1) := by
  constructor
  · intro c0 v0 rowA rowB
    have hst2 : st2Of (bConcurApp rowB) 0 ⟨some c0, v0⟩
        = ⟨some (updatedContent c0 true rowB), v0 + 1⟩ := rfl
    have ha : aOf (bConcurApp rowB) rowA 0 ⟨some c0, v0⟩
        = ⟨updatedContent c0 true rowA, some v0, true⟩ := rfl
    have hne : ¬ (v0 + 1 = v0) := by omega
    have hww : wOf (bConcurApp rowB) rowA 0 ⟨some c0, v0⟩
        = (⟨some (updatedContent c0 true rowB), v0 + 1⟩, .exn 409) := by
      show doWrite (bConcurApp rowB) 0 (st2Of (bConcurApp rowB) 0 ⟨some c0, v0⟩)
          (aOf (bConcurApp rowB) rowA 0 ⟨some c0, v0⟩) = _
      rw [hst2, ha]
      simp [doWrite, bConcurApp, hne]
    have he : update_github_csv (bConcurApp rowB) rowA ⟨some c0, v0⟩
        = runFrom (bConcurApp rowB) rowA ⟨some c0, v0⟩ 0 (1 + 1 + 1) := rfl
    rw [he, runFrom_succ_conflict _ _ _ _ (1 + 1) (by rw [hww])]
    simp only [Nat.zero_add]
    rw [show (wOf (bConcurApp rowB) rowA 0 ⟨some c0, v0⟩).1
        = (⟨some (updatedContent c0 true rowB), v0 + 1⟩ : St) from by rw [hww]]
    have hww' : wOf (bConcurApp rowB) rowA 1 ⟨some (updatedContent c0 true rowB), v0 + 1⟩
        = (⟨some (updatedContent (updatedContent c0 true rowB) true rowA), v0 + 1 + 1⟩, .ok) := by
      show doWrite (bConcurApp rowB) 1
          (st2Of (bConcurApp rowB) 1 ⟨some (updatedContent c0 true rowB), v0 + 1⟩)
          (aOf (bConcurApp rowB) rowA 1 ⟨some (updatedContent c0 true rowB), v0 + 1⟩) = _
      rw [show st2Of (bConcurApp rowB) 1 ⟨some (updatedContent c0 true rowB), v0 + 1⟩
            = ⟨some (updatedContent c0 true rowB), v0 + 1⟩ from rfl,
          show aOf (bConcurApp rowB) rowA 1 ⟨some (updatedContent c0 true rowB), v0 + 1⟩
            = ⟨updatedContent (updatedContent c0 true rowB) true rowA, some (v0 + 1), true⟩
            from rfl]
      simp [doWrite, bConcurApp]
    rw [runFrom_succ_ok _ _ _ 1 1 (by rw [hww'])]
    rw [show (wOf (bConcurApp rowB) rowA 1 ⟨some (updatedContent c0 true rowB), v0 + 1⟩).1
        = (⟨some (updatedContent (updatedContent c0 true rowB) true rowA), v0 + 1 + 1⟩ : St)
        from by rw [hww']]
    refine ⟨rfl, rfl, ?_, ?_⟩
    · simp [countFetch, List.countP_cons, Ev.isFetchEv]
    · simp [countWait, List.countP_cons, Ev.isWaitEv]
  · exact ⟨by decide, by decide, by decide⟩

/-- C9: serialization uses standard CSV quoting (any field containing a
comma, quote or newline is emitted quoted with embedded quotes doubled),
and parsing a serialized Launch Record row back under standard CSV rules
reconstructs every field exactly — in particular for a retailer field
containing both a comma and a quote. -/
theorem c9_csv_round_trip :
    (∀ r : LaunchRecord, parseLine (serializeRow r.toRow) = some r.toRow)
    ∧ (∀ f : String,
         f.data.any (fun c => c = ',' || c = '\"' || c = '\n') = true →
         quoteFieldC f.data = '\"' :: (escQ f.data ++ ['\"']))
    ∧ parseLine (serializeRow
          ["2024-01-01 10:00:00", "Smith, \"Co\" Ltd", "T1", "12", "Jane Doe", "https://x/y"])
        = some ["2024-01-01 10:00:00", "Smith, \"Co\" Ltd", "T1", "12", "Jane Doe", "https://x/y"] := by
  refine ⟨?_, ?_, by decide⟩
  · intro r
    exact parseLine_serializeRow r.toRow (by simp [LaunchRecord.toRow])
  · intro f hf
    have hq : needsQuoteC f.data = true := by
      rcases List.any_eq_true.mp hf with ⟨c, hc, hprop⟩
      refine List.any_eq_true.mpr ⟨c, hc, ?_⟩
      simp only [Bool.or_eq_true, decide_eq_true_eq] at hprop ⊢
      tauto
    simp [quoteFieldC, hq]

/-- Witness for C9: a concrete record whose retailer field contains both a
comma and a quote character round-trips, and such a field is quoted. -/
theorem c9_csv_round_trip_witness :
    parseLine (serializeRow (LaunchRecord.toRow ⟨"d", "A,\"B", "T1", "5", "J", "L"⟩))
        = some (LaunchRecord.toRow ⟨"d", "A,\"B", "T1", "5", "J", "L"⟩) ∧
    quoteFieldC ("A,\"B" : String).data = '\"' :: (escQ ("A,\"B" : String).data ++ ['\"']) :=
  ⟨c9_csv_round_trip.1 ⟨"d", "A,\"B", "T1", "5", "J", "L"⟩,
   c9_csv_round_trip.2.1 "A,\"B" (by decide)⟩

/-- C10: the uppercase keywords of the table ("AW" here) can never match,
because `parse_message` lowercases the text but inserts the keyword into
the regex verbatim — so a message announcing "AW" yields retailer
"Unknown" while the spelled-out lowercase keyword for the same retailer
does match; tranche and page count are still extracted. -/
theorem c10_uppercase_keywords_never_match :
    parse_message "Confirmed AW launch T2 5 pages" = ("Unknown", "T2", "5") ∧
    parse_message "Confirmed ambrose wilson launch T2 5 pages"
      = ("Ambrose Wilson", "T2", "5") := by
  exact ⟨by decide, by decide⟩

end LaunchTracker
